import Mathlib

/-!
# Verification of the image-hub identifier, link-codec and quota logic

Shallow embedding of the logic in `src/utils/cpf.ts`, the user-mapping
module (`hashCPF` / `generateUserId` / `getUserIdentifier`), the auth
context (`AuthProvider.login`) and `src/services/imageService.ts`
(`getImageLink`, `compressImage`, `uploadImage`, `fetchUserImagesList`,
`invalidateUserImagesCache`, `countUserImages`, `getUserStorageUsage`,
`getUserImagesInfo`, `canUploadImages`, `deleteImage`).

JavaScript strings are modelled as Lean `String`/`List Char`; byte values
as `Nat` (with explicit `< 256` bounds where `btoa` requires Latin-1);
fractional megabyte arithmetic as exact rationals (`ℚ`); a function that
can `throw` returns `JSResult`; external collaborators (the SHA-256
library, the storage backend, `localStorage`) are parameters.
-/

namespace ImageHub

/-- Outcome of a JavaScript computation that may `throw`: either a normal
return value or a thrown `Error` carrying its message. -/
inductive JSResult (α : Type) where
  | ok (val : α)
  | thrown (msg : String)
deriving DecidableEq, Repr

/-- `cleanCPF` from `src/utils/cpf.ts`: `cpf.replace(/\D/g, '')` removes
every non-digit character. -/
def cleanCPF (cpf : String) : String :=
  String.mk (cpf.data.filter Char.isDigit)

/-- The value `AuthProvider.login` stores in state and `localStorage`
(`imageHubCpf`) and that all components later pass to the image service
as the `cpf` argument: the cleaned raw CPF digits. -/
def loginStoredCpf (cpfInput : String) : String :=
  cleanCPF cpfInput

/-- `hashCPF` from the user-mapping module.  The SHA-256 library call
(`CryptoJS.SHA256(...).toString()`) is an external collaborator, passed in
as `sha256hex`.  The function cleans the input, throws
`'CPF deve ter 11 dígitos'` when the cleaned value does not have exactly
11 digits, and otherwise returns the hex hash of the cleaned string. -/
def hashCPF (sha256hex : String → String) (cpf : String) : JSResult String :=
  let cleaned := cleanCPF cpf
  if cleaned.length ≠ 11 then
    .thrown "CPF deve ter 11 dígitos"
  else
    .ok (sha256hex cleaned)

/-- `generateUserId` from the user-mapping module:
`cpfHash.substring(0, 16)`. -/
def generateUserId (cpfHash : String) : String :=
  cpfHash.take 16

/-- Result record of `getUserIdentifier`. -/
structure UserIdentifier where
  cpfHash : String
  userId : String
deriving DecidableEq, Repr

/-- `getUserIdentifier` from the user-mapping module: calls `hashCPF`
(whose exception propagates, since there is no try/catch) and derives the
`userId` from the hash. -/
def getUserIdentifier (sha256hex : String → String) (cpf : String) :
    JSResult UserIdentifier :=
  match hashCPF sha256hex cpf with
  | .ok h => .ok ⟨h, generateUserId h⟩
  | .thrown m => .thrown m

/-! ## Opaque link codec (`uploadImage` token encoding / `getImageLink`)

`btoa`/`atob` operate on Latin-1 JavaScript strings, modelled as lists of
byte values (`Nat < 256`).  `atob` implements forgiving base64: trailing
`'='` padding is dropped, a leftover group of 2 or 3 characters decodes
to 1 or 2 bytes, and a leftover single character (length ≡ 1 mod 4) or a
character outside the alphabet makes it throw (modelled as `none`). -/

/-- The standard base64 alphabet used by `btoa`/`atob`. -/
def b64Alphabet : List Char :=
  "ABCDEFGHIJKLMNOPQRSTUVWXYZabcdefghijklmnopqrstuvwxyz0123456789+/".data

/-- Character for a six-bit value (values ≥ 64 never occur for byte
input; the default is irrelevant there). -/
def b64Char (n : Nat) : Char :=
  b64Alphabet.getD n '?'

/-- Six-bit value of a base64 character, `none` outside the alphabet. -/
def b64Val (c : Char) : Option Nat :=
  b64Alphabet.findIdx? (fun x => x == c)

/-- `btoa`: bytes to padded base64 characters, three bytes per group. -/
def btoaBytes : List Nat → List Char
  | [] => []
  | [b1] =>
    [b64Char (b1 / 4), b64Char (b1 % 4 * 16), '=', '=']
  | [b1, b2] =>
    [b64Char (b1 / 4), b64Char (b1 % 4 * 16 + b2 / 16), b64Char (b2 % 16 * 4), '=']
  | b1 :: b2 :: b3 :: rest =>
    b64Char (b1 / 4) :: b64Char (b1 % 4 * 16 + b2 / 16) ::
      b64Char (b2 % 16 * 4 + b3 / 64) :: b64Char (b3 % 64) :: btoaBytes rest

/-- Forgiving base64 decoding of a padding-free character list. -/
def atobCore : List Char → Option (List Nat)
  | [] => some []
  | [c1, c2] =>
    match b64Val c1, b64Val c2 with
    | some v1, some v2 => some [v1 * 4 + v2 / 16]
    | _, _ => none
  | [c1, c2, c3] =>
    match b64Val c1, b64Val c2, b64Val c3 with
    | some v1, some v2, some v3 =>
      some [v1 * 4 + v2 / 16, v2 % 16 * 16 + v3 / 4]
    | _, _, _ => none
  | c1 :: c2 :: c3 :: c4 :: rest =>
    match b64Val c1, b64Val c2, b64Val c3, b64Val c4, atobCore rest with
    | some v1, some v2, some v3, some v4, some tail =>
      some ((v1 * 4 + v2 / 16) :: (v2 % 16 * 16 + v3 / 4) :: (v3 % 4 * 64 + v4) :: tail)
    | _, _, _, _, _ => none
  | [_] => none

/-- Drop trailing `'='` padding characters. -/
def stripTrailingEq (cs : List Char) : List Char :=
  (cs.reverse.dropWhile (fun c => c == '=')).reverse

/-- `atob`: forgiving base64 decode, tolerating trailing padding. -/
def atob (cs : List Char) : Option (List Nat) :=
  atobCore (stripTrailingEq cs)

/-- JavaScript `str.replace(/x/g, 'y')` for single characters. -/
def jsReplaceAll (a b : Char) (cs : List Char) : List Char :=
  cs.map (fun c => if c = a then b else c)

/-- JavaScript `str.replace(/x/g, '')` for a single character. -/
def stripChar (x : Char) (cs : List Char) : List Char :=
  cs.filter (fun c => c != x)

/-- Byte values of a Latin-1 JavaScript string. -/
def jsStrBytes (s : String) : List Nat :=
  s.data.map Char.toNat

/-- The unique-id encoding of `uploadImage` (and `listUserImages`):
`btoa(cpf + '-' + fileName).replace(/\//g, '-').replace(/\+/g, '_')
.replace(/=/g, '')`. -/
def encodeUniqueId (cpf fileName : String) : List Char :=
  stripChar '=' (jsReplaceAll '+' '_' (jsReplaceAll '/' '-'
    (btoaBytes (jsStrBytes (cpf ++ "-" ++ fileName)))))

/-- JavaScript `str.split(sep)` for a single-character separator. -/
def splitOnChar (sep : Char) : List Char → List (List Char)
  | [] => [[]]
  | c :: rest =>
    match splitOnChar sep rest with
    | [] => [[]]
    | h :: t => if c = sep then [] :: h :: t else (c :: h) :: t

/-- JavaScript `parts.join('-')`. -/
def joinWithHyphen : List (List Char) → List Char
  | [] => []
  | [p] => p
  | p :: q :: rest => p ++ '-' :: joinWithHyphen (q :: rest)

/-- Record returned by `getImageLink` (the `ImageLink` interface). -/
structure ImageLink where
  uniqueId : List Char
  cpf : String
  filename : String
  createdAt : Nat
deriving DecidableEq, Repr

/-- `getImageLink` from `imageService.ts`.  The base64 decode path: undo
the URL-safe substitution, `atob`, split on `'-'`; when at least two
parts result, the first part is the cpf and the rest, re-joined on
hyphens, the filename.  When `atob` throws, the `localStorage` backup
(`links`, an external collaborator) is consulted; when decoding succeeds
but yields fewer than two parts the function returns `null` without
consulting the backup.  `Date.now()` is passed in as `now`. -/
def getImageLink (links : List Char → Option ImageLink) (now : Nat)
    (uniqueId : List Char) : Option ImageLink :=
  match atob (jsReplaceAll '_' '+' (jsReplaceAll '-' '/' uniqueId)) with
  | some bytes =>
    let decodedStr := bytes.map Char.ofNat
    let parts := splitOnChar '-' decodedStr
    if 2 ≤ parts.length then
      some ⟨uniqueId, String.mk (parts.headD []),
        String.mk (joinWithHyphen (parts.drop 1)), now⟩
    else
      none
  | none => links uniqueId

/-! ## Quota, cache and upload model (`imageService.ts`)

The storage backend's listing call is an external collaborator, modelled
as `backend : String → Option (List StoredFile)` (`none` = the call
returned an error object or threw).  The execution model is sequential:
a listing request is created, runs to completion, and its `finally`
handler removes the pending-request marker before any other top-level
call observes the module state — the `pendingRequests` component is kept
so that the attach-to-in-flight branch of the source is represented. -/

/-- Limit from `imageService.ts` line 5. -/
def MAX_IMAGES_PER_USER : Nat := 100

/-- Limit from `imageService.ts` line 6, as an exact rational. -/
def MAX_STORAGE_PER_USER_MB : ℚ := 20

/-- Cache freshness window from `imageService.ts` line 217. -/
def CACHE_TTL : Nat := 5000

/-- A row of the storage listing.  The source reads the size as
`(file.metadata?.size) || (file as any).size || 0`, so both fields are
optional and a present-but-zero value falls through (JavaScript `||`). -/
structure StoredFile where
  name : String
  metaSize : Option Nat
  rawSize : Option Nat
deriving DecidableEq, Repr

/-- JavaScript `a || b` on an optional number: `undefined` and `0` are
falsy. -/
def jsOrSize (a : Option Nat) (b : Nat) : Nat :=
  match a with
  | some n => if n = 0 then b else n
  | none => b

/-- `(file.metadata?.size) || (file as any).size || 0`. -/
def storedFileSize (f : StoredFile) : Nat :=
  jsOrSize f.metaSize (jsOrSize f.rawSize 0)

/-- `data.reduce((sum, file) => sum + size, 0)`. -/
def totalListBytes (data : List StoredFile) : Nat :=
  data.foldl (fun sum f => sum + storedFileSize f) 0

/-- The module-level `userImagesCache` entry. -/
structure CacheEntry where
  cpf : String
  data : List StoredFile
  timestamp : Nat
deriving DecidableEq, Repr

/-- The module-level mutable state of `imageService.ts`:
`userImagesCache` and `pendingRequests`. -/
structure SvcState where
  userImagesCache : Option CacheEntry
  pendingRequests : List (String × List StoredFile)
deriving DecidableEq, Repr

/-- Result of one `fetchUserImagesList` call: the resolved data, the
module state afterwards, and how many network listing calls were issued
(0 or 1). -/
structure FetchResult where
  data : List StoredFile
  state : SvcState
  networkCalls : Nat
deriving DecidableEq, Repr

/-- The cache-miss path of `fetchUserImagesList`: attach to a pending
request if one exists, otherwise issue the network listing call; on
error resolve to `[]` without updating the cache; on success store the
new snapshot; the `finally` handler removes the pending marker. -/
def fetchNetwork (backend : String → Option (List StoredFile))
    (now : Nat) (st : SvcState) (cpf : String) : FetchResult :=
  match st.pendingRequests.lookup cpf with
  | some pendingData => ⟨pendingData, st, 0⟩
  | none =>
    match backend cpf with
    | none =>
      ⟨[], ⟨st.userImagesCache,
        st.pendingRequests.filter (fun p => p.1 != cpf)⟩, 1⟩
    | some data =>
      ⟨data, ⟨some ⟨cpf, data, now⟩,
        st.pendingRequests.filter (fun p => p.1 != cpf)⟩, 1⟩

/-- `fetchUserImagesList(cpf, useCache)`: serve from the cache when
permitted, fresh (age below `CACHE_TTL`) and for the same cpf; otherwise
fall through to the network path. -/
def fetchUserImagesList (backend : String → Option (List StoredFile))
    (now : Nat) (st : SvcState) (cpf : String) (useCache : Bool) :
    FetchResult :=
  match st.userImagesCache with
  | some entry =>
    if useCache && (entry.cpf == cpf) &&
        decide (now - entry.timestamp < CACHE_TTL) then
      ⟨entry.data, st, 0⟩
    else fetchNetwork backend now st cpf
  | none => fetchNetwork backend now st cpf

/-- `invalidateUserImagesCache`: with a cpf, drop that owner's cache
entry and pending marker; without one, clear everything. -/
def invalidateUserImagesCache (st : SvcState) (cpf : Option String) :
    SvcState :=
  match cpf with
  | some c =>
    ⟨match st.userImagesCache with
     | some entry => if entry.cpf = c then none else some entry
     | none => none,
     st.pendingRequests.filter (fun p => p.1 != c)⟩
  | none => ⟨none, []⟩

/-- `countUserImages`: length of the (possibly cached) listing. -/
def countUserImages (backend : String → Option (List StoredFile))
    (now : Nat) (st : SvcState) (cpf : String) : Nat × SvcState :=
  let r := fetchUserImagesList backend now st cpf true
  (r.data.length, r.state)

/-- Return record of `getUserStorageUsage`. -/
structure StorageUsage where
  usedMB : ℚ
  usedBytes : Nat
  fileCount : Nat
deriving DecidableEq, Repr

/-- `getUserStorageUsage`: sum the listing sizes and convert to binary
megabytes (divisor 1024·1024), with an early return for an empty list. -/
def getUserStorageUsage (backend : String → Option (List StoredFile))
    (now : Nat) (st : SvcState) (cpf : String) : StorageUsage × SvcState :=
  let r := fetchUserImagesList backend now st cpf true
  if r.data.length = 0 then
    (⟨0, 0, 0⟩, r.state)
  else
    let totalBytes := totalListBytes r.data
    (⟨(totalBytes : ℚ) / (1024 * 1024), totalBytes, r.data.length⟩, r.state)

/-- Return record of `getUserImagesInfo` (count and usage figures). -/
structure UserImagesInfo where
  count : Nat
  usedMB : ℚ
  usedBytes : Nat
deriving DecidableEq, Repr

/-- Result of `getUserImagesInfo`: the info, the module state afterwards
and the number of network listing calls issued. -/
structure InfoResult where
  info : UserImagesInfo
  state : SvcState
  networkCalls : Nat
deriving DecidableEq, Repr

/-- `getUserImagesInfo`: one combined count-and-usage query.  It calls
`fetchUserImagesList(cpf, false)` — deliberately bypassing the cache
("Não usar cache para garantir dados frescos"). -/
def getUserImagesInfo (backend : String → Option (List StoredFile))
    (now : Nat) (st : SvcState) (cpf : String) : InfoResult :=
  let r := fetchUserImagesList backend now st cpf false
  let totalBytes := totalListBytes r.data
  ⟨⟨r.data.length, (totalBytes : ℚ) / (1024 * 1024), totalBytes⟩,
    r.state, r.networkCalls⟩

/-- A file blob as the service sees it: name, MIME type, byte size. -/
structure FileBlob where
  name : String
  mimeType : String
  size : Nat
deriving DecidableEq, Repr

/-- A candidate upload: the original blob plus the behaviour of the two
external collaborators on it — `createImageBitmap` (`none` = it throws,
otherwise width × height) and the `browser-image-compression` library
call (its result, or the message of the error it throws). -/
structure CandidateFile where
  blob : FileBlob
  bitmap : Option (Nat × Nat)
  libResult : JSResult FileBlob
deriving DecidableEq, Repr

/-- The keep-original fast path of `compressImage`: a JPEG of at most
800 KiB whose bitmap reads successfully with both dimensions at most
2048 is returned unchanged. -/
def jpegSmallKeep (file : CandidateFile) : Bool :=
  (file.blob.mimeType == "image/jpeg") &&
  (decide (file.blob.size ≤ 800 * 1024)) &&
  (match file.bitmap with
   | some wh => decide (wh.1 ≤ 2048) && decide (wh.2 ≤ 2048)
   | none => false)

/-- `compressImage`: keep a small JPEG, otherwise run the compression
library; a missing or empty result is an error — the function throws
instead of falling back to the original file. -/
def compressImage (file : CandidateFile) : JSResult FileBlob :=
  if jpegSmallKeep file then .ok file.blob
  else
    match file.libResult with
    | .thrown msg => .thrown msg
    | .ok compressedFile =>
      if compressedFile.size = 0 then
        .thrown ("Falha ao comprimir a imagem \"" ++ file.blob.name ++
          "\". Arquivo inválido após compressão.")
      else .ok compressedFile

/-- The compression-error messages collected by the `for` loop of
`canUploadImages`, in file order. -/
def compressionErrorsOf (files : List CandidateFile) : List String :=
  files.filterMap (fun f =>
    match compressImage f with
    | .thrown m => some m
    | .ok _ => none)

/-- The successfully compressed blobs collected by the same loop
(`filesToCheck`), in file order. -/
def compressedBlobsOf (files : List CandidateFile) : List FileBlob :=
  files.filterMap (fun f =>
    match compressImage f with
    | .thrown _ => none
    | .ok g => some g)

/-- Structured rendering of the user-facing message strings of
`canUploadImages`; each constructor captures one message template with
its interpolated values (decimal `toFixed` display formatting is not
modelled, the exact rational values are kept). -/
inductive UploadMessage where
  | countLimit (maxCount currentCount : Nat)
  | compressionFailure (failedCount totalCount : Nat) (firstError : String)
  | storageLimit (maxMB currentMB availableMB totalSizeMB : ℚ)
deriving DecidableEq, Repr

/-- The `reason` field of the admission decision. -/
inductive UploadReason where
  | count
  | storage
deriving DecidableEq, Repr

/-- The record returned by `canUploadImages`. -/
structure UploadCheck where
  canUpload : Bool
  currentCount : Nat
  maxCount : Nat
  currentMB : ℚ
  maxMB : ℚ
  message : Option UploadMessage
  reason : Option UploadReason
deriving DecidableEq, Repr

/-- Result of one `canUploadImages` call: the decision, the module state
afterwards, the number of network listing calls issued and the names of
the files on which compression was attempted, in order. -/
structure CanUploadResult where
  check : UploadCheck
  state : SvcState
  listingCalls : Nat
  compressAttempts : List String
deriving DecidableEq, Repr

/-- The decision logic of `canUploadImages` as a function of the fetched
usage figures: the count check first, then (unless `alreadyCompressed`)
the compression results, then the storage check with the binary-megabyte
divisor.  The compression-failure rejection reuses `'count'` as a
generic reason and reports `currentMB: 0`. -/
def uploadCheckOf (info : UserImagesInfo)
    (newFiles : List CandidateFile) (alreadyCompressed : Bool) :
    UploadCheck :=
  let currentCount := info.count
  let currentMB := info.usedMB
  if currentCount + newFiles.length > MAX_IMAGES_PER_USER then
    ⟨false, currentCount, MAX_IMAGES_PER_USER, currentMB,
      MAX_STORAGE_PER_USER_MB,
      some (.countLimit MAX_IMAGES_PER_USER currentCount), some .count⟩
  else
    let filesToCheck : List FileBlob :=
      if alreadyCompressed then newFiles.map CandidateFile.blob
      else compressedBlobsOf newFiles
    let compressionErrors : List String :=
      if alreadyCompressed then [] else compressionErrorsOf newFiles
    if compressionErrors.length > 0 then
      ⟨false, currentCount, MAX_IMAGES_PER_USER, 0,
        MAX_STORAGE_PER_USER_MB,
        some (.compressionFailure compressionErrors.length newFiles.length
          (compressionErrors.headD "")), some .count⟩
    else
      let totalSizeBytes : Nat := filesToCheck.foldl (fun sum f => sum + f.size) 0
      let totalSizeMB : ℚ := (totalSizeBytes : ℚ) / (1024 * 1024)
      if currentMB + totalSizeMB > MAX_STORAGE_PER_USER_MB then
        ⟨false, currentCount, MAX_IMAGES_PER_USER, currentMB,
          MAX_STORAGE_PER_USER_MB,
          some (.storageLimit MAX_STORAGE_PER_USER_MB currentMB
            (MAX_STORAGE_PER_USER_MB - currentMB) totalSizeMB),
          some .storage⟩
      else
        ⟨true, currentCount, MAX_IMAGES_PER_USER, currentMB,
          MAX_STORAGE_PER_USER_MB, none, none⟩

/-- The files fed to `compressImage` by `canUploadImages`, in order:
none when the count check rejects first or when the batch is marked
already compressed. -/
def compressAttemptsOf (info : UserImagesInfo)
    (newFiles : List CandidateFile) (alreadyCompressed : Bool) :
    List String :=
  if info.count + newFiles.length > MAX_IMAGES_PER_USER then []
  else if alreadyCompressed then []
  else newFiles.map (fun f => f.blob.name)

/-- `canUploadImages`: one combined listing request
(`getUserImagesInfo`), then the pure decision logic above.  Nothing in
this model can throw, so the outer `catch` branch of the source is
unreachable here. -/
def canUploadImages (backend : String → Option (List StoredFile))
    (now : Nat) (st : SvcState) (cpf : String)
    (newFiles : List CandidateFile) (alreadyCompressed : Bool) :
    CanUploadResult :=
  let r := getUserImagesInfo backend now st cpf
  ⟨uploadCheckOf r.info newFiles alreadyCompressed, r.state,
    r.networkCalls, compressAttemptsOf r.info newFiles alreadyCompressed⟩

/-- The pre-upload flow of the uploader component (`handleUpload`): run
the admission check first; when it rejects, return without issuing any
`uploadImage` call; when it admits, one upload call per file.  Returns
the number of `uploadImage` calls issued. -/
def handleUploadCalls (backend : String → Option (List StoredFile))
    (now : Nat) (st : SvcState) (cpf : String)
    (files : List CandidateFile) : Nat :=
  let limitCheck := canUploadImages backend now st cpf files false
  if limitCheck.check.canUpload then files.length else 0

/-- Environment of one `uploadImage` call: the listing collaborator, the
outcome of the storage upload call, `getPublicUrl`, `Date.now()` and the
random suffix. -/
structure UploadEnv where
  backend : String → Option (List StoredFile)
  uploadOk : Bool
  publicUrl : String → String
  nowTs : Nat
  randSuffix : String

/-- `uploadImage`'s success value. -/
structure UploadSuccess where
  url : String
  uniqueId : List Char
  filename : String
deriving DecidableEq, Repr

/-- Outcome of `uploadImage`: the returned value (`none` = the catch
branch returned `null`), the module state afterwards, and the storage
path passed to the upload call when one was issued. -/
structure UploadOutcome where
  result : Option UploadSuccess
  state : SvcState
  uploadedPath : Option String
deriving Repr

/-- `file.name.split('.').pop()`. -/
def lastDotSegment (name : String) : String :=
  (name.splitOn ".").getLastD ""

/-- The extension adjustment of `uploadImage`: prefer the compressed
MIME type, fall back to the (lower-cased) original extension, defaulting
to `webp` when that is empty (falsy). -/
def finalExtFor (originalName compressedType : String) : String :=
  let originalExt := (lastDotSegment originalName).toLower
  let base := if originalExt = "" then "webp" else originalExt
  if compressedType = "image/webp" then "webp"
  else if compressedType = "image/jpeg" then "jpg"
  else if compressedType = "image/png" then "png"
  else base

/-- The generated object name `${Date.now()}-${randomSuffix}.${ext}`. -/
def uploadFileName (env : UploadEnv) (file : CandidateFile)
    (compressedFile : FileBlob) : String :=
  toString env.nowTs ++ "-" ++ env.randSuffix ++ "." ++
    finalExtFor file.blob.name compressedFile.mimeType

/-- The tail of `uploadImage` after compression and the optional limit
check: build the path `${cpf}/${fileName}`, encode the unique id, issue
the storage upload; on success save the link backup (a `localStorage`
write, outside this state), invalidate the owner's cache and return the
record; on upload error return `null` without invalidating. -/
def uploadCore (env : UploadEnv) (st : SvcState) (file : CandidateFile)
    (compressedFile : FileBlob) (cpf : String) : UploadOutcome :=
  let fileName := uploadFileName env file compressedFile
  let filePath := cpf ++ "/" ++ fileName
  let uniqueId := encodeUniqueId cpf fileName
  if env.uploadOk then
    ⟨some ⟨env.publicUrl filePath, uniqueId, fileName⟩,
      invalidateUserImagesCache st (some cpf), some filePath⟩
  else
    ⟨none, st, some filePath⟩

/-- `uploadImage(file, cpf, checkLimits)`: compress (a thrown
compression error is caught and `null` returned), optionally re-check
the storage quota against the compressed size (a quota overflow throws
and is caught as `null`), then `uploadCore`. -/
def uploadImage (env : UploadEnv) (st : SvcState) (file : CandidateFile)
    (cpf : String) (checkLimits : Bool) : UploadOutcome :=
  match compressImage file with
  | .thrown _ => ⟨none, st, none⟩
  | .ok compressedFile =>
    if checkLimits then
      let usage := getUserStorageUsage env.backend env.nowTs st cpf
      if usage.1.usedMB + (compressedFile.size : ℚ) / (1024 * 1024) >
          MAX_STORAGE_PER_USER_MB then
        ⟨none, usage.2, none⟩
      else
        uploadCore env usage.2 file compressedFile cpf
    else
      uploadCore env st file compressedFile cpf

/-- `deleteImage`: issue the storage remove call (`removeOk` is its
outcome); on success drop the `localStorage` link (outside this state)
and invalidate the owner's cache; on error return `false` without
invalidating. -/
def deleteImage (removeOk : Bool) (st : SvcState) (cpf fileName : String) :
    Bool × SvcState :=
  if removeOk then
    (true, invalidateUserImagesCache st (some cpf))
  else
    (false, st)

/-- C8: identifier derivation is deterministic and depends only on the
digits of the input: two inputs with the same cleaned digit string of
exactly 11 digits yield the same `(fullHash, ownerIdentifier)`, namely
the hex hash of the cleaned string and its first 16 characters. -/
theorem getUserIdentifier_deterministic (H : String → String) (a b : String)
    (hab : cleanCPF a = cleanCPF b) (hlen : (cleanCPF a).length = 11) :
    getUserIdentifier H a = getUserIdentifier H b ∧
    getUserIdentifier H a = .ok ⟨H (cleanCPF a), (H (cleanCPF a)).take 16⟩ := by
  refine ⟨?_, ?_⟩ <;>
    simp [getUserIdentifier, hashCPF, generateUserId, ← hab, hlen]

/-- Witness for C8 at the concrete inputs `"529.982.247-25"` and
`"52998224725"`, which clean to the same 11-digit string. -/
theorem getUserIdentifier_deterministic_app :
    getUserIdentifier (fun s => s ++ s) "529.982.247-25" =
      getUserIdentifier (fun s => s ++ s) "52998224725" ∧
    getUserIdentifier (fun s => s ++ s) "529.982.247-25" =
      .ok ⟨"5299822472552998224725", "5299822472552998"⟩ := by
  have h := getUserIdentifier_deterministic (fun s => s ++ s)
    "529.982.247-25" "52998224725" (by decide) (by decide)
  refine ⟨h.1, ?_⟩
  rw [h.2]
  decide

/-- C9 counterexample: on the malformed input `"123"` the deriver does
not return a sentinel failure value — it throws an `Error` across its
boundary (modelled as the `thrown` outcome), contradicting the claimed
never-throwing propagation policy. -/
theorem hashCPF_throws_on_invalid :
    hashCPF (fun s => s) "123" = .thrown "CPF deve ter 11 dígitos" := by
  decide

/-- C9 (amended): for every input whose cleaned value does not have
exactly 11 digits, `hashCPF` fails with the `'CPF deve ter 11 dígitos'`
error, performing no hashing (the result is independent of the hash
collaborator), and `getUserIdentifier` propagates the same failure — but
the failure is signalled by throwing, not by a sentinel return. -/
theorem hashCPF_invalid_no_hashing (H1 H2 : String → String) (input : String)
    (h : (cleanCPF input).length ≠ 11) :
    hashCPF H1 input = .thrown "CPF deve ter 11 dígitos" ∧
    hashCPF H1 input = hashCPF H2 input ∧
    getUserIdentifier H1 input = .thrown "CPF deve ter 11 dígitos" := by
  refine ⟨?_, ?_, ?_⟩ <;> simp [getUserIdentifier, hashCPF, h]

/-- Witness for C9 (amended) at the concrete input `"123-456"` (7 digits
after cleaning) with two distinct hash collaborators. -/
theorem hashCPF_invalid_no_hashing_app :
    (cleanCPF "123-456").length ≠ 11 ∧
    hashCPF (fun s => s) "123-456" = .thrown "CPF deve ter 11 dígitos" ∧
    hashCPF (fun s => s) "123-456" = hashCPF (fun _ => "zzz") "123-456" ∧
    getUserIdentifier (fun s => s) "123-456" =
      .thrown "CPF deve ter 11 dígitos" := by
  have h := hashCPF_invalid_no_hashing (fun s => s) (fun _ => "zzz")
    "123-456" (by decide)
  exact ⟨by decide, h.1, h.2.1, h.2.2⟩

/-! ### Round-trip lemmas for the codec -/

theorem b64Val_b64Char : ∀ s : Fin 64, b64Val (b64Char s.val) = some s.val := by
  decide

theorem b64Char_notin : ∀ s : Fin 64,
    b64Char s.val ≠ '-' ∧ b64Char s.val ≠ '_' ∧ b64Char s.val ≠ '=' := by
  decide

theorem b64Val_b64Char_of_lt (s : Nat) (hs : s < 64) :
    b64Val (b64Char s) = some s :=
  b64Val_b64Char ⟨s, hs⟩

theorem b64Char_ne_eq (s : Nat) (hs : s < 64) : b64Char s ≠ '=' :=
  (b64Char_notin ⟨s, hs⟩).2.2

theorem jsReplaceAll_cons (a b c : Char) (l : List Char) :
    jsReplaceAll a b (c :: l) = (if c = a then b else c) :: jsReplaceAll a b l :=
  rfl

theorem stripChar_nil (x : Char) : stripChar x [] = [] := rfl

theorem stripChar_cons_of_ne (x c : Char) (l : List Char) (h : c ≠ x) :
    stripChar x (c :: l) = c :: stripChar x l := by
  simp [stripChar, List.filter_cons, h]

theorem stripChar_cons_self (x : Char) (l : List Char) :
    stripChar x (x :: l) = stripChar x l := by
  simp [stripChar, List.filter_cons]

theorem not_mem_stripChar_self (x : Char) (l : List Char) :
    x ∉ stripChar x l := by
  intro h
  have := List.of_mem_filter h
  simp at this

theorem stripTrailingEq_of_no_eq (l : List Char) (h : '=' ∉ l) :
    stripTrailingEq l = l := by
  unfold stripTrailingEq
  have : l.reverse.dropWhile (fun c => c == '=') = l.reverse := by
    cases hr : l.reverse with
    | nil => simp
    | cons a t =>
      have ha : a ≠ '=' := by
        intro e
        apply h
        have : a ∈ l.reverse := by rw [hr]; exact List.mem_cons_self a t
        rw [← e]
        simpa using this
      rw [List.dropWhile_cons]
      simp [ha]
  rw [this, List.reverse_reverse]

/-- Undoing the URL-safe substitution restores a padding-stripped base64
string: the two substitutions commute past the padding strip and cancel
on any list free of `'-'` and `'_'` outside its `'='` characters. -/
theorem decode_substitution (l : List Char)
    (h : ∀ c ∈ l, (c ≠ '-' ∧ c ≠ '_') ∨ c = '=') :
    jsReplaceAll '_' '+' (jsReplaceAll '-' '/' (stripChar '='
      (jsReplaceAll '+' '_' (jsReplaceAll '/' '-' l)))) = stripChar '=' l := by
  induction l with
  | nil => rfl
  | cons c t ih =>
    have ht := ih (fun x hx => h x (List.mem_cons_of_mem c hx))
    by_cases he : c = '='
    · subst he
      rw [jsReplaceAll_cons, if_neg (by decide), jsReplaceAll_cons,
        if_neg (by decide), stripChar_cons_self, stripChar_cons_self, ht]
    · have hcd : c ≠ '-' ∧ c ≠ '_' := by
        rcases h c (List.mem_cons_self c t) with hcd | hee
        · exact hcd
        · exact absurd hee he
      by_cases e1 : c = '/'
      · subst e1
        rw [jsReplaceAll_cons, if_pos rfl, jsReplaceAll_cons,
          if_neg (by decide), stripChar_cons_of_ne _ _ _ (by decide),
          jsReplaceAll_cons, if_pos rfl, jsReplaceAll_cons,
          if_neg (by decide), stripChar_cons_of_ne _ _ _ (by decide), ht]
      · by_cases e2 : c = '+'
        · subst e2
          rw [jsReplaceAll_cons, if_neg (by decide), jsReplaceAll_cons,
            if_pos rfl, stripChar_cons_of_ne _ _ _ (by decide),
            jsReplaceAll_cons, if_neg (by decide), jsReplaceAll_cons,
            if_pos rfl, stripChar_cons_of_ne _ _ _ (by decide), ht]
        · rw [jsReplaceAll_cons, if_neg e1, jsReplaceAll_cons, if_neg e2,
            stripChar_cons_of_ne _ _ _ he, jsReplaceAll_cons,
            if_neg hcd.1, jsReplaceAll_cons, if_neg hcd.2,
            stripChar_cons_of_ne _ _ _ he, ht]

/-- Every character produced by `btoaBytes` on byte input is either in
the base64 alphabet (hence not `'-'`, `'_'` or `'='`) or the padding
character `'='`. -/
theorem btoaBytes_chars : ∀ (bs : List Nat), (∀ b ∈ bs, b < 256) →
    ∀ c ∈ btoaBytes bs, (c ≠ '-' ∧ c ≠ '_') ∨ c = '='
  | [], _, c, hc => by simp [btoaBytes] at hc
  | [b1], h, c, hc => by
    have h1 : b1 < 256 := h b1 (by simp)
    simp only [btoaBytes, List.mem_cons, List.not_mem_nil, or_false] at hc
    rcases hc with hc | hc | hc | hc <;> subst hc
    · exact Or.inl ⟨(b64Char_notin ⟨b1 / 4, by omega⟩).1,
        (b64Char_notin ⟨b1 / 4, by omega⟩).2.1⟩
    · exact Or.inl ⟨(b64Char_notin ⟨b1 % 4 * 16, by omega⟩).1,
        (b64Char_notin ⟨b1 % 4 * 16, by omega⟩).2.1⟩
    · exact Or.inr rfl
    · exact Or.inr rfl
  | [b1, b2], h, c, hc => by
    have h1 : b1 < 256 := h b1 (by simp)
    have h2 : b2 < 256 := h b2 (by simp)
    simp only [btoaBytes, List.mem_cons, List.not_mem_nil, or_false] at hc
    rcases hc with hc | hc | hc | hc <;> subst hc
    · exact Or.inl ⟨(b64Char_notin ⟨b1 / 4, by omega⟩).1,
        (b64Char_notin ⟨b1 / 4, by omega⟩).2.1⟩
    · exact Or.inl ⟨(b64Char_notin ⟨b1 % 4 * 16 + b2 / 16, by omega⟩).1,
        (b64Char_notin ⟨b1 % 4 * 16 + b2 / 16, by omega⟩).2.1⟩
    · exact Or.inl ⟨(b64Char_notin ⟨b2 % 16 * 4, by omega⟩).1,
        (b64Char_notin ⟨b2 % 16 * 4, by omega⟩).2.1⟩
    · exact Or.inr rfl
  | b1 :: b2 :: b3 :: rest, h, c, hc => by
    have h1 : b1 < 256 := h b1 (by simp)
    have h2 : b2 < 256 := h b2 (by simp)
    have h3 : b3 < 256 := h b3 (by simp)
    simp only [btoaBytes, List.mem_cons] at hc
    rcases hc with hc | hc | hc | hc | hc
    · subst hc
      exact Or.inl ⟨(b64Char_notin ⟨b1 / 4, by omega⟩).1,
        (b64Char_notin ⟨b1 / 4, by omega⟩).2.1⟩
    · subst hc
      exact Or.inl ⟨(b64Char_notin ⟨b1 % 4 * 16 + b2 / 16, by omega⟩).1,
        (b64Char_notin ⟨b1 % 4 * 16 + b2 / 16, by omega⟩).2.1⟩
    · subst hc
      exact Or.inl ⟨(b64Char_notin ⟨b2 % 16 * 4 + b3 / 64, by omega⟩).1,
        (b64Char_notin ⟨b2 % 16 * 4 + b3 / 64, by omega⟩).2.1⟩
    · subst hc
      exact Or.inl ⟨(b64Char_notin ⟨b3 % 64, by omega⟩).1,
        (b64Char_notin ⟨b3 % 64, by omega⟩).2.1⟩
    · exact btoaBytes_chars rest (fun b hb => h b (by simp [hb])) c hc

/-- Decoding inverts encoding on byte lists: `atobCore` applied to the
padding-stripped output of `btoaBytes` recovers the bytes. -/
theorem atobCore_strip_btoa : ∀ (bs : List Nat), (∀ b ∈ bs, b < 256) →
    atobCore (stripChar '=' (btoaBytes bs)) = some bs
  | [], _ => rfl
  | [b1], h => by
    have h1 : b1 < 256 := h b1 (by simp)
    show atobCore (stripChar '='
      [b64Char (b1 / 4), b64Char (b1 % 4 * 16), '=', '=']) = some [b1]
    rw [stripChar_cons_of_ne _ _ _ (b64Char_ne_eq _ (by omega)),
      stripChar_cons_of_ne _ _ _ (b64Char_ne_eq _ (by omega)),
      stripChar_cons_self, stripChar_cons_self, stripChar_nil]
    show atobCore [b64Char (b1 / 4), b64Char (b1 % 4 * 16)] = some [b1]
    rw [atobCore, b64Val_b64Char_of_lt _ (by omega),
      b64Val_b64Char_of_lt _ (by omega)]
    simp only [Option.some.injEq, List.cons.injEq, and_true]
    omega
  | [b1, b2], h => by
    have h1 : b1 < 256 := h b1 (by simp)
    have h2 : b2 < 256 := h b2 (by simp)
    show atobCore (stripChar '=' [b64Char (b1 / 4),
      b64Char (b1 % 4 * 16 + b2 / 16), b64Char (b2 % 16 * 4), '=']) =
      some [b1, b2]
    rw [stripChar_cons_of_ne _ _ _ (b64Char_ne_eq _ (by omega)),
      stripChar_cons_of_ne _ _ _ (b64Char_ne_eq _ (by omega)),
      stripChar_cons_of_ne _ _ _ (b64Char_ne_eq _ (by omega)),
      stripChar_cons_self, stripChar_nil]
    show atobCore [b64Char (b1 / 4), b64Char (b1 % 4 * 16 + b2 / 16),
      b64Char (b2 % 16 * 4)] = some [b1, b2]
    rw [atobCore, b64Val_b64Char_of_lt _ (by omega),
      b64Val_b64Char_of_lt _ (by omega), b64Val_b64Char_of_lt _ (by omega)]
    simp only [Option.some.injEq, List.cons.injEq, and_true]
    constructor <;> omega
  | b1 :: b2 :: b3 :: rest, h => by
    have h1 : b1 < 256 := h b1 (by simp)
    have h2 : b2 < 256 := h b2 (by simp)
    have h3 : b3 < 256 := h b3 (by simp)
    have ih := atobCore_strip_btoa rest (fun b hb => h b (by simp [hb]))
    show atobCore (stripChar '=' (b64Char (b1 / 4) ::
      b64Char (b1 % 4 * 16 + b2 / 16) :: b64Char (b2 % 16 * 4 + b3 / 64) ::
      b64Char (b3 % 64) :: btoaBytes rest)) = some (b1 :: b2 :: b3 :: rest)
    rw [stripChar_cons_of_ne _ _ _ (b64Char_ne_eq _ (by omega)),
      stripChar_cons_of_ne _ _ _ (b64Char_ne_eq _ (by omega)),
      stripChar_cons_of_ne _ _ _ (b64Char_ne_eq _ (by omega)),
      stripChar_cons_of_ne _ _ _ (b64Char_ne_eq _ (by omega)),
      atobCore, b64Val_b64Char_of_lt _ (by omega),
      b64Val_b64Char_of_lt _ (by omega), b64Val_b64Char_of_lt _ (by omega),
      b64Val_b64Char_of_lt _ (by omega), ih]
    simp only [Option.some.injEq, List.cons.injEq, and_true]
    refine ⟨by omega, by omega, by omega⟩

/-- `splitOnChar` never returns the empty list of parts. -/
theorem splitOnChar_ne_nil (sep : Char) (l : List Char) :
    splitOnChar sep l ≠ [] := by
  cases l with
  | nil => simp [splitOnChar]
  | cons c t =>
    rcases h : splitOnChar sep t with _ | ⟨h1, t1⟩
    · simp [splitOnChar, h]
    · by_cases e : c = sep <;> simp [splitOnChar, h, e]

/-- Splitting `i ++ '-' :: f` on `'-'` when `i` is hyphen-free peels off
`i` as the first part. -/
theorem splitOnChar_append (i f : List Char) (hi : '-' ∉ i) :
    splitOnChar '-' (i ++ '-' :: f) = i :: splitOnChar '-' f := by
  induction i with
  | nil =>
    rcases h : splitOnChar '-' f with _ | ⟨h1, t1⟩
    · exact absurd h (splitOnChar_ne_nil _ _)
    · simp [splitOnChar, h]
  | cons c rest ih =>
    have hc : c ≠ '-' := fun e => hi (e ▸ List.mem_cons_self c rest)
    have hrest : '-' ∉ rest := fun e => hi (List.mem_cons_of_mem c e)
    rw [List.cons_append]
    simp [splitOnChar, ih hrest, hc]

theorem joinWithHyphen_cons_cons (c : Char) (p : List Char)
    (t : List (List Char)) :
    joinWithHyphen ((c :: p) :: t) = c :: joinWithHyphen (p :: t) := by
  cases t <;> rfl

/-- Re-joining the parts of a split on `'-'` restores the original. -/
theorem joinWithHyphen_splitOnChar (f : List Char) :
    joinWithHyphen (splitOnChar '-' f) = f := by
  induction f with
  | nil => rfl
  | cons c t ih =>
    rcases h : splitOnChar '-' t with _ | ⟨h1, t1⟩
    · exact absurd h (splitOnChar_ne_nil _ _)
    · rw [h] at ih
      by_cases e : c = '-'
      · subst e
        have hs : splitOnChar '-' ('-' :: t) = [] :: h1 :: t1 := by
          simp [splitOnChar, h]
        rw [hs, joinWithHyphen, List.nil_append, ih]
      · have hs : splitOnChar '-' (c :: t) = (c :: h1) :: t1 := by
          simp [splitOnChar, h, e]
        rw [hs, joinWithHyphen_cons_cons, ih]

/-- C2: round-trip law of the opaque link codec.  For every owner value
and filename over the Latin-1 character set accepted by `btoa`, with the
owner value hyphen-free, decoding the token produced by the upload-time
encoding yields exactly the original pair, the filename reassembled by
rejoining on hyphens everything after the first separator. -/
theorem getImageLink_encodeUniqueId (links : List Char → Option ImageLink)
    (now : Nat) (cpf fileName : String)
    (hhyph : '-' ∉ cpf.data)
    (hcpf : ∀ c ∈ cpf.data, c.toNat < 256)
    (hfn : ∀ c ∈ fileName.data, c.toNat < 256) :
    getImageLink links now (encodeUniqueId cpf fileName) =
      some ⟨encodeUniqueId cpf fileName, cpf, fileName, now⟩ := by
  have hdata : (cpf ++ "-" ++ fileName).data =
      cpf.data ++ '-' :: fileName.data := by
    simp [String.data_append, List.append_assoc]
  have hbs : ∀ b ∈ jsStrBytes (cpf ++ "-" ++ fileName), b < 256 := by
    intro b hb
    simp only [jsStrBytes, List.mem_map] at hb
    obtain ⟨c, hc, rfl⟩ := hb
    rw [hdata] at hc
    rcases List.mem_append.mp hc with h | h
    · exact hcpf c h
    · rcases List.mem_cons.mp h with h | h
      · subst h; decide
      · exact hfn c h
  have hatob : atob (jsReplaceAll '_' '+' (jsReplaceAll '-' '/'
      (encodeUniqueId cpf fileName))) =
      some (jsStrBytes (cpf ++ "-" ++ fileName)) := by
    unfold encodeUniqueId
    rw [decode_substitution _ (btoaBytes_chars _ hbs)]
    unfold atob
    rw [stripTrailingEq_of_no_eq _ (not_mem_stripChar_self _ _)]
    exact atobCore_strip_btoa _ hbs
  have hmap : (jsStrBytes (cpf ++ "-" ++ fileName)).map Char.ofNat =
      cpf.data ++ '-' :: fileName.data := by
    rw [jsStrBytes, List.map_map, hdata]
    have hpt : ∀ c ∈ cpf.data ++ '-' :: fileName.data,
        (Char.ofNat ∘ Char.toNat) c = id c := fun c _ => Char.ofNat_toNat c
    rw [List.map_congr_left hpt, List.map_id]
  have hsplit : splitOnChar '-' (cpf.data ++ '-' :: fileName.data) =
      cpf.data :: splitOnChar '-' fileName.data :=
    splitOnChar_append _ _ hhyph
  rcases hsf : splitOnChar '-' fileName.data with _ | ⟨p, ps⟩
  · exact absurd hsf (splitOnChar_ne_nil _ _)
  · unfold getImageLink
    rw [hatob]
    simp only [hmap, hsplit, hsf, List.length_cons, List.headD_cons,
      List.drop_one, List.tail_cons]
    rw [if_pos (by omega)]
    have hjoin := joinWithHyphen_splitOnChar fileName.data
    rw [hsf] at hjoin
    rw [hjoin]

/-- Witness for C2 at a concrete owner value and a filename containing a
hyphen and a dot. -/
theorem getImageLink_encodeUniqueId_app :
    getImageLink (fun _ => none) 0 (encodeUniqueId "52998224725" "170-a.webp") =
      some ⟨encodeUniqueId "52998224725" "170-a.webp", "52998224725",
        "170-a.webp", 0⟩ :=
  getImageLink_encodeUniqueId (fun _ => none) 0 "52998224725" "170-a.webp"
    (by decide) (by decide) (by decide)

/-! ### Lemmas about the cache state machine and the admission check -/

theorem lookup_filter_ne_none (cpf : String)
    (l : List (String × List StoredFile)) :
    (l.filter (fun p => p.1 != cpf)).lookup cpf = none := by
  induction l with
  | nil => rfl
  | cons p t ih =>
    obtain ⟨k, v⟩ := p
    by_cases e : k = cpf
    · simp [List.filter_cons, e, ih]
    · have hb : (cpf == k) = false := by
        simp only [beq_eq_false_iff_ne, ne_eq]
        exact fun h => e h.symm
      simp [List.filter_cons, e, List.lookup, hb, ih]

/-- With the cache bypassed (`useCache = false`) every fetch goes to the
network path. -/
theorem fetchUserImagesList_no_cache (backend : String → Option (List StoredFile))
    (now : Nat) (st : SvcState) (cpf : String) :
    fetchUserImagesList backend now st cpf false =
      fetchNetwork backend now st cpf := by
  unfold fetchUserImagesList
  cases st.userImagesCache <;> simp

theorem fetchNetwork_no_pending_data (backend : String → Option (List StoredFile))
    (now : Nat) (st : SvcState) (cpf : String)
    (hpend : st.pendingRequests.lookup cpf = none) :
    (fetchNetwork backend now st cpf).data = (backend cpf).getD [] := by
  unfold fetchNetwork
  rw [hpend]
  cases backend cpf <;> rfl

theorem fetchNetwork_no_pending_calls (backend : String → Option (List StoredFile))
    (now : Nat) (st : SvcState) (cpf : String)
    (hpend : st.pendingRequests.lookup cpf = none) :
    (fetchNetwork backend now st cpf).networkCalls = 1 := by
  unfold fetchNetwork
  rw [hpend]
  cases backend cpf <;> rfl

theorem fetchNetwork_no_pending_state (backend : String → Option (List StoredFile))
    (now : Nat) (st : SvcState) (cpf : String)
    (hpend : st.pendingRequests.lookup cpf = none) :
    (fetchNetwork backend now st cpf).state.pendingRequests =
      st.pendingRequests.filter (fun p => p.1 != cpf) := by
  unfold fetchNetwork
  rw [hpend]
  cases backend cpf <;> rfl

/-- With no pending request, `getUserImagesInfo` always issues one
network listing call and computes its figures from the backend data. -/
theorem getUserImagesInfo_no_pending (backend : String → Option (List StoredFile))
    (now : Nat) (st : SvcState) (cpf : String)
    (hpend : st.pendingRequests.lookup cpf = none) :
    (getUserImagesInfo backend now st cpf).info =
      ⟨((backend cpf).getD []).length,
        (totalListBytes ((backend cpf).getD []) : ℚ) / (1024 * 1024),
        totalListBytes ((backend cpf).getD [])⟩ ∧
    (getUserImagesInfo backend now st cpf).networkCalls = 1 ∧
    (getUserImagesInfo backend now st cpf).state.pendingRequests =
      st.pendingRequests.filter (fun p => p.1 != cpf) := by
  unfold getUserImagesInfo
  rw [fetchUserImagesList_no_cache]
  dsimp only
  refine ⟨?_, ?_, ?_⟩
  · rw [fetchNetwork_no_pending_data backend now st cpf hpend]
  · exact fetchNetwork_no_pending_calls backend now st cpf hpend
  · exact fetchNetwork_no_pending_state backend now st cpf hpend

/-- The usage figures of `getUserImagesInfo` are always related by the
binary-megabyte divisor. -/
theorem getUserImagesInfo_usedMB (backend : String → Option (List StoredFile))
    (now : Nat) (st : SvcState) (cpf : String) :
    (getUserImagesInfo backend now st cpf).info.usedMB =
      ((getUserImagesInfo backend now st cpf).info.usedBytes : ℚ) /
        (1024 * 1024) := rfl

/-- Exact-arithmetic equivalence between the source's megabyte
comparison and the byte comparison. -/
theorem mb_cmp (a b : Nat) :
    ((a : ℚ) / (1024 * 1024) + (b : ℚ) / (1024 * 1024) >
      MAX_STORAGE_PER_USER_MB) ↔ a + b > 20 * (1024 * 1024) := by
  rw [MAX_STORAGE_PER_USER_MB, div_add_div_same, gt_iff_lt,
    lt_div_iff (by norm_num : (0 : ℚ) < 1024 * 1024)]
  rw [gt_iff_lt]
  constructor <;> intro h
  · exact_mod_cast h
  · exact_mod_cast h

theorem uploadCheckOf_count_reject (info : UserImagesInfo)
    (files : List CandidateFile) (ac : Bool)
    (h : info.count + files.length > MAX_IMAGES_PER_USER) :
    uploadCheckOf info files ac =
      ⟨false, info.count, MAX_IMAGES_PER_USER, info.usedMB,
        MAX_STORAGE_PER_USER_MB,
        some (.countLimit MAX_IMAGES_PER_USER info.count), some .count⟩ := by
  simp only [uploadCheckOf]
  rw [if_pos h]

theorem uploadCheckOf_compression_reject (info : UserImagesInfo)
    (files : List CandidateFile)
    (hcount : info.count + files.length ≤ MAX_IMAGES_PER_USER)
    (herr : compressionErrorsOf files ≠ []) :
    uploadCheckOf info files false =
      ⟨false, info.count, MAX_IMAGES_PER_USER, 0, MAX_STORAGE_PER_USER_MB,
        some (.compressionFailure (compressionErrorsOf files).length
          files.length ((compressionErrorsOf files).headD "")),
        some .count⟩ := by
  have hac : (if (false : Bool) = true then ([] : List String)
      else compressionErrorsOf files) = compressionErrorsOf files := rfl
  have hac2 : (if (false : Bool) = true then files.map CandidateFile.blob
      else compressedBlobsOf files) = compressedBlobsOf files := rfl
  simp only [uploadCheckOf, hac, hac2]
  rw [if_neg (show ¬(info.count + files.length > MAX_IMAGES_PER_USER) by
      omega),
    if_pos (show (compressionErrorsOf files).length > 0 from
      List.length_pos.mpr herr)]

theorem uploadCheckOf_no_errors (info : UserImagesInfo)
    (files : List CandidateFile)
    (hcount : info.count + files.length ≤ MAX_IMAGES_PER_USER)
    (hcomp : compressionErrorsOf files = []) :
    uploadCheckOf info files false =
      (if info.usedMB + (((compressedBlobsOf files).foldl
            (fun sum f => sum + f.size) 0 : Nat) : ℚ) / (1024 * 1024) >
          MAX_STORAGE_PER_USER_MB then
        ⟨false, info.count, MAX_IMAGES_PER_USER, info.usedMB,
          MAX_STORAGE_PER_USER_MB,
          some (.storageLimit MAX_STORAGE_PER_USER_MB info.usedMB
            (MAX_STORAGE_PER_USER_MB - info.usedMB)
            ((((compressedBlobsOf files).foldl
                (fun sum f => sum + f.size) 0 : Nat) : ℚ) / (1024 * 1024))),
          some .storage⟩
      else
        ⟨true, info.count, MAX_IMAGES_PER_USER, info.usedMB,
          MAX_STORAGE_PER_USER_MB, none, none⟩) := by
  have hac : (if (false : Bool) = true then ([] : List String)
      else compressionErrorsOf files) = compressionErrorsOf files := rfl
  have hac2 : (if (false : Bool) = true then files.map CandidateFile.blob
      else compressedBlobsOf files) = compressedBlobsOf files := rfl
  simp only [uploadCheckOf, hac, hac2]
  rw [if_neg (show ¬(info.count + files.length > MAX_IMAGES_PER_USER) by
      omega),
    if_neg (show ¬(compressionErrorsOf files).length > 0 by
      simp [hcomp])]

/-- Past the count check, the decision's message is never the
count-limit message. -/
theorem uploadCheckOf_message_shapes (info : UserImagesInfo)
    (files : List CandidateFile) (ac : Bool)
    (h : ¬(info.count + files.length > MAX_IMAGES_PER_USER)) :
    (uploadCheckOf info files ac).message = none ∨
    (∃ a b c, (uploadCheckOf info files ac).message =
      some (.compressionFailure a b c)) ∨
    (∃ a b c d, (uploadCheckOf info files ac).message =
      some (.storageLimit a b c d)) := by
  simp only [uploadCheckOf]
  rw [if_neg h]
  cases ac with
  | true =>
    simp only [if_true]
    rw [if_neg (show ¬([] : List String).length > 0 by simp)]
    split
    · exact Or.inr (Or.inr ⟨_, _, _, _, rfl⟩)
    · exact Or.inl rfl
  | false =>
    simp only [Bool.false_eq_true, if_false]
    split
    · exact Or.inr (Or.inl ⟨_, _, _, rfl⟩)
    · split
      · exact Or.inr (Or.inr ⟨_, _, _, _, rfl⟩)
      · exact Or.inl rfl

/-- C3 counterexample: a batch whose compression fails is rejected with
reason `'count'` even though the count limit is not exceeded (0 stored
images + 1 candidate ≤ 100), so "reason `'count'` exactly when
`currentCount + len > maxCount`" is false as stated. -/
theorem canUploadImages_count_reason_not_iff :
    (canUploadImages (fun _ => some ([] : List StoredFile)) 0 ⟨none, []⟩ "u"
      [⟨⟨"corrupt.png", "image/png", 100⟩, none, .thrown "boom"⟩]
      false).check.reason = some .count ∧
    (getUserImagesInfo (fun _ => some ([] : List StoredFile)) 0 ⟨none, []⟩
      "u").info.count + 1 ≤ MAX_IMAGES_PER_USER := by
  decide

/-- C3 (amended): `canUploadImages` rejects with reason `'count'` and
the count-limit message exactly when `currentCount + len(candidateFiles)
> maxCount`; this check is evaluated first, before any compression
(no compression attempt happens on a count rejection) and the uploader
then issues no upload call.  (Reason `'count'` alone is also reused as a
generic reason for compression failures, so reason `'count'` by itself
does not imply the count condition.) -/
theorem canUploadImages_count_check (backend : String → Option (List StoredFile))
    (now : Nat) (st : SvcState) (cpf : String)
    (files : List CandidateFile) (ac : Bool) :
    (((canUploadImages backend now st cpf files ac).check.reason =
        some .count ∧
      (canUploadImages backend now st cpf files ac).check.message =
        some (.countLimit MAX_IMAGES_PER_USER
          (getUserImagesInfo backend now st cpf).info.count)) ↔
      (getUserImagesInfo backend now st cpf).info.count + files.length >
        MAX_IMAGES_PER_USER) ∧
    ((getUserImagesInfo backend now st cpf).info.count + files.length >
        MAX_IMAGES_PER_USER →
      (canUploadImages backend now st cpf files ac).check.canUpload = false ∧
      (canUploadImages backend now st cpf files ac).compressAttempts = [] ∧
      handleUploadCalls backend now st cpf files = 0) := by
  have hcheck : (canUploadImages backend now st cpf files ac).check =
      uploadCheckOf (getUserImagesInfo backend now st cpf).info files ac := rfl
  have hatt : (canUploadImages backend now st cpf files ac).compressAttempts =
      compressAttemptsOf (getUserImagesInfo backend now st cpf).info files ac :=
    rfl
  by_cases h : (getUserImagesInfo backend now st cpf).info.count +
      files.length > MAX_IMAGES_PER_USER
  · refine ⟨⟨fun _ => h, fun _ => ?_⟩, fun _ => ⟨?_, ?_, ?_⟩⟩
    · rw [hcheck, uploadCheckOf_count_reject _ _ _ h]
      exact ⟨rfl, rfl⟩
    · rw [hcheck, uploadCheckOf_count_reject _ _ _ h]
    · rw [hatt]
      simp only [compressAttemptsOf]
      rw [if_pos h]
    · unfold handleUploadCalls
      dsimp only
      have hfc : (canUploadImages backend now st cpf files false).check =
          uploadCheckOf (getUserImagesInfo backend now st cpf).info files
            false := rfl
      rw [hfc, uploadCheckOf_count_reject _ _ _ h]
      rfl
  · refine ⟨⟨fun hcm => ?_, fun hc => absurd hc h⟩, fun hc => absurd hc h⟩
    exfalso
    rw [hcheck] at hcm
    rcases uploadCheckOf_message_shapes
        (getUserImagesInfo backend now st cpf).info files ac h with
      h0 | ⟨a, b, c, h0⟩ | ⟨a, b, c, d, h0⟩ <;>
      rw [h0] at hcm <;> simp at hcm

/-- C4: when compression of one or more candidates fails (and the count
check passes), the batch is rejected with a compression-failure message
carrying the failure count and the first failure's text; `compressImage`
itself propagates the library failure (never returning the original
file), and any successful compression result is either the kept-small
JPEG original or a genuine nonempty library output — the original blob
is never used in place of a failed compression. -/
theorem canUploadImages_compression_failure
    (backend : String → Option (List StoredFile)) (now : Nat)
    (st : SvcState) (cpf : String) (files : List CandidateFile)
    (hcount : (getUserImagesInfo backend now st cpf).info.count +
      files.length ≤ MAX_IMAGES_PER_USER)
    (herr : compressionErrorsOf files ≠ []) :
    (canUploadImages backend now st cpf files false).check.canUpload =
      false ∧
    (canUploadImages backend now st cpf files false).check.message =
      some (.compressionFailure (compressionErrorsOf files).length
        files.length ((compressionErrorsOf files).headD "")) ∧
    (∀ f : CandidateFile, ∀ m, f.libResult = .thrown m →
      jpegSmallKeep f = false → compressImage f = .thrown m) ∧
    (∀ f : CandidateFile, ∀ g, compressImage f = .ok g →
      (jpegSmallKeep f = true ∧ g = f.blob) ∨
      (f.libResult = .ok g ∧ g.size ≠ 0)) := by
  have hcheck : (canUploadImages backend now st cpf files false).check =
      uploadCheckOf (getUserImagesInfo backend now st cpf).info files
        false := rfl
  rw [hcheck, uploadCheckOf_compression_reject _ _ hcount herr]
  refine ⟨rfl, rfl, ?_, ?_⟩
  · intro f m hlib hkeep
    unfold compressImage
    rw [hkeep, hlib]
    rfl
  · intro f g hok
    unfold compressImage at hok
    by_cases hkeep : jpegSmallKeep f
    · rw [if_pos hkeep] at hok
      refine Or.inl ⟨hkeep, ?_⟩
      injection hok with hb
      exact hb.symm
    · rw [if_neg hkeep] at hok
      cases hlib : f.libResult with
      | thrown m =>
        rw [hlib] at hok
        dsimp only at hok
        exact absurd hok (by simp)
      | ok cf =>
        rw [hlib] at hok
        dsimp only at hok
        by_cases hz : cf.size = 0
        · rw [if_pos hz] at hok
          exact absurd hok (by simp)
        · rw [if_neg hz] at hok
          injection hok with hb
          subst hb
          exact Or.inr ⟨rfl, hz⟩

/-- C5: with the count check passed and all compressions successful,
`canUploadImages` rejects with reason `'storage'` exactly when the
current usage bytes plus the summed post-compression sizes exceed the
20 MiB quota (the source's megabyte comparison with the 1024·1024
divisor is exactly this byte comparison); otherwise it admits, returning
the current and maximum count and byte-usage figures. -/
theorem canUploadImages_storage_check
    (backend : String → Option (List StoredFile)) (now : Nat)
    (st : SvcState) (cpf : String) (files : List CandidateFile)
    (hcount : (getUserImagesInfo backend now st cpf).info.count +
      files.length ≤ MAX_IMAGES_PER_USER)
    (hcomp : compressionErrorsOf files = []) :
    (((canUploadImages backend now st cpf files false).check.reason =
        some .storage ∧
      (canUploadImages backend now st cpf files false).check.canUpload =
        false) ↔
      (getUserImagesInfo backend now st cpf).info.usedBytes +
        (compressedBlobsOf files).foldl (fun sum f => sum + f.size) 0 >
        20 * (1024 * 1024)) ∧
    ((getUserImagesInfo backend now st cpf).info.usedBytes +
        (compressedBlobsOf files).foldl (fun sum f => sum + f.size) 0 ≤
        20 * (1024 * 1024) →
      (canUploadImages backend now st cpf files false).check =
        ⟨true, (getUserImagesInfo backend now st cpf).info.count,
          MAX_IMAGES_PER_USER,
          (getUserImagesInfo backend now st cpf).info.usedMB,
          MAX_STORAGE_PER_USER_MB, none, none⟩) := by
  have hcheck : (canUploadImages backend now st cpf files false).check =
      uploadCheckOf (getUserImagesInfo backend now st cpf).info files
        false := rfl
  rw [hcheck, uploadCheckOf_no_errors _ _ hcount hcomp]
  have hmb : ((getUserImagesInfo backend now st cpf).info.usedMB +
      (((compressedBlobsOf files).foldl (fun sum f => sum + f.size) 0 :
        Nat) : ℚ) / (1024 * 1024) > MAX_STORAGE_PER_USER_MB) ↔
      (getUserImagesInfo backend now st cpf).info.usedBytes +
        (compressedBlobsOf files).foldl (fun sum f => sum + f.size) 0 >
        20 * (1024 * 1024) := by
    rw [getUserImagesInfo_usedMB]
    exact mb_cmp _ _
  by_cases hover : (getUserImagesInfo backend now st cpf).info.usedMB +
      (((compressedBlobsOf files).foldl (fun sum f => sum + f.size) 0 :
        Nat) : ℚ) / (1024 * 1024) > MAX_STORAGE_PER_USER_MB
  · rw [if_pos hover]
    refine ⟨⟨fun _ => hmb.mp hover, fun _ => ⟨rfl, rfl⟩⟩, fun hle => ?_⟩
    exact absurd (hmb.mp hover) (by omega)
  · rw [if_neg hover]
    exact ⟨⟨fun hc => absurd hc.1 (by simp),
      fun hby => absurd (hmb.mpr hby) hover⟩, fun _ => rfl⟩

/-- Witness for C5: an owner with 19 MiB stored and one candidate that
compresses to 2 MiB is rejected for storage (19 + 2 > 20 MiB). -/
theorem canUploadImages_storage_check_app :
    (canUploadImages (fun _ => some [⟨"big.webp", some 19922944, none⟩]) 0
      ⟨none, []⟩ "u"
      [⟨⟨"new.png", "image/png", 9000000⟩, some (4000, 3000),
        .ok ⟨"new.webp", "image/webp", 2097152⟩⟩] false).check.reason =
      some .storage ∧
    (canUploadImages (fun _ => some [⟨"big.webp", some 19922944, none⟩]) 0
      ⟨none, []⟩ "u"
      [⟨⟨"new.png", "image/png", 9000000⟩, some (4000, 3000),
        .ok ⟨"new.webp", "image/webp", 2097152⟩⟩] false).check.canUpload =
      false :=
  (canUploadImages_storage_check (fun _ => some [⟨"big.webp", some 19922944,
      none⟩]) 0 ⟨none, []⟩ "u"
    [⟨⟨"new.png", "image/png", 9000000⟩, some (4000, 3000),
      .ok ⟨"new.webp", "image/webp", 2097152⟩⟩]
    (by decide) (by decide)).1.mpr (by decide)

/-- C6 counterexample: after one admission check the usage snapshot for
the owner is cached with a fresh timestamp, yet an immediately repeated
admission check still issues a network listing call (the admission path
passes `useCache = false`), contradicting the claimed absence of a
second listing call. -/
theorem canUploadImages_refetches_within_ttl :
    (canUploadImages (fun _ => some ([] : List StoredFile)) 0 ⟨none, []⟩
      "u" [] false).state.userImagesCache = some ⟨"u", [], 0⟩ ∧
    (canUploadImages (fun _ => some ([] : List StoredFile)) 0
      (canUploadImages (fun _ => some ([] : List StoredFile)) 0 ⟨none, []⟩
        "u" [] false).state "u" [] false).listingCalls = 1 := by
  decide

/-- C6 (amended): two successive admission checks for the same owner
with no intervening mutation return the same decision, but each of the
two calls issues its own network listing call — the admission path
deliberately bypasses the usage cache, so the freshness window never
suppresses its listing call. -/
theorem canUploadImages_repeat (backend : String → Option (List StoredFile))
    (now1 now2 : Nat) (st : SvcState) (cpf : String)
    (files : List CandidateFile) (ac : Bool)
    (hpend : st.pendingRequests.lookup cpf = none) :
    (canUploadImages backend now2
        (canUploadImages backend now1 st cpf files ac).state cpf files
        ac).check =
      (canUploadImages backend now1 st cpf files ac).check ∧
    (canUploadImages backend now1 st cpf files ac).listingCalls = 1 ∧
    (canUploadImages backend now2
        (canUploadImages backend now1 st cpf files ac).state cpf files
        ac).listingCalls = 1 := by
  have h1 := getUserImagesInfo_no_pending backend now1 st cpf hpend
  have hst : (canUploadImages backend now1 st cpf files ac).state =
      (getUserImagesInfo backend now1 st cpf).state := rfl
  have hpend2 : (canUploadImages backend now1 st cpf files
      ac).state.pendingRequests.lookup cpf = none := by
    rw [hst, h1.2.2]
    exact lookup_filter_ne_none cpf _
  have h2 := getUserImagesInfo_no_pending backend now2
    (canUploadImages backend now1 st cpf files ac).state cpf hpend2
  refine ⟨?_, ?_, ?_⟩
  · show uploadCheckOf (getUserImagesInfo backend now2
        (canUploadImages backend now1 st cpf files ac).state cpf).info
        files ac =
      uploadCheckOf (getUserImagesInfo backend now1 st cpf).info files ac
    rw [h1.1, h2.1]
  · show (getUserImagesInfo backend now1 st cpf).networkCalls = 1
    exact h1.2.1
  · show (getUserImagesInfo backend now2
        (canUploadImages backend now1 st cpf files ac).state cpf).networkCalls = 1
    exact h2.2.1

/-- Witness for C6 (amended) at a concrete state with one stored file
and one admissible candidate. -/
theorem canUploadImages_repeat_app :
    (canUploadImages (fun _ => some [⟨"old.webp", some 1000, none⟩]) 9000
        (canUploadImages (fun _ => some [⟨"old.webp", some 1000, none⟩]) 0
          ⟨none, []⟩ "u" [] false).state "u" [] false).check =
      (canUploadImages (fun _ => some [⟨"old.webp", some 1000, none⟩]) 0
        ⟨none, []⟩ "u" [] false).check ∧
    (canUploadImages (fun _ => some [⟨"old.webp", some 1000, none⟩]) 0
      ⟨none, []⟩ "u" [] false).listingCalls = 1 ∧
    (canUploadImages (fun _ => some [⟨"old.webp", some 1000, none⟩]) 9000
        (canUploadImages (fun _ => some [⟨"old.webp", some 1000, none⟩]) 0
          ⟨none, []⟩ "u" [] false).state "u" [] false).listingCalls = 1 :=
  canUploadImages_repeat (fun _ => some [⟨"old.webp", some 1000, none⟩])
    0 9000 ⟨none, []⟩ "u" [] false (by decide)

/-- A cache-using fetch whose cached entry (if any) belongs to another
owner goes to the network path. -/
theorem fetch_cache_miss (backend : String → Option (List StoredFile))
    (now : Nat) (st : SvcState) (cpf : String)
    (hcache : ∀ e, st.userImagesCache = some e → e.cpf ≠ cpf) :
    fetchUserImagesList backend now st cpf true =
      fetchNetwork backend now st cpf := by
  unfold fetchUserImagesList
  cases hc : st.userImagesCache with
  | none => rfl
  | some entry =>
    have hne := hcache entry hc
    dsimp only
    rw [if_neg]
    simp [hne]

/-- After `invalidateUserImagesCache(cpf)` the owner has no cache entry
and no pending marker, so the next cache-using fetch issues a network
listing call and returns the backend's current data. -/
theorem invalidate_forces_refetch (st0 : SvcState) (cpf : String)
    (backend2 : String → Option (List StoredFile)) (now2 : Nat) :
    (∀ e, (invalidateUserImagesCache st0 (some cpf)).userImagesCache =
      some e → e.cpf ≠ cpf) ∧
    (invalidateUserImagesCache st0 (some cpf)).pendingRequests.lookup cpf =
      none ∧
    (fetchUserImagesList backend2 now2
      (invalidateUserImagesCache st0 (some cpf)) cpf true).data =
      (backend2 cpf).getD [] ∧
    (fetchUserImagesList backend2 now2
      (invalidateUserImagesCache st0 (some cpf)) cpf true).networkCalls =
      1 := by
  have hcache : ∀ e,
      (invalidateUserImagesCache st0 (some cpf)).userImagesCache =
        some e → e.cpf ≠ cpf := by
    intro e he
    simp only [invalidateUserImagesCache] at he
    cases hc : st0.userImagesCache with
    | none =>
      rw [hc] at he
      exact absurd he (by simp)
    | some entry =>
      rw [hc] at he
      dsimp only at he
      by_cases hcc : entry.cpf = cpf
      · rw [if_pos hcc] at he
        exact absurd he (by simp)
      · rw [if_neg hcc] at he
        injection he with hee
        rw [← hee]
        exact hcc
  have hpend : (invalidateUserImagesCache st0
      (some cpf)).pendingRequests.lookup cpf = none := by
    simp only [invalidateUserImagesCache]
    exact lookup_filter_ne_none cpf _
  refine ⟨hcache, hpend, ?_, ?_⟩
  · rw [fetch_cache_miss _ _ _ _ hcache]
    exact fetchNetwork_no_pending_data _ _ _ _ hpend
  · rw [fetch_cache_miss _ _ _ _ hcache]
    exact fetchNetwork_no_pending_calls _ _ _ _ hpend

/-- A successful `uploadImage` always ends in the invalidation of the
owner's cache entry and pending marker. -/
theorem uploadImage_success_state (env : UploadEnv) (st : SvcState)
    (file : CandidateFile) (cpf : String) (checkLimits : Bool)
    (res : UploadSuccess)
    (h : (uploadImage env st file cpf checkLimits).result = some res) :
    ∃ st0, (uploadImage env st file cpf checkLimits).state =
      invalidateUserImagesCache st0 (some cpf) := by
  unfold uploadImage at h ⊢
  cases hc : compressImage file with
  | thrown m =>
    rw [hc] at h
    dsimp only at h
    exact absurd h (by simp)
  | ok cf =>
    rw [hc] at h
    dsimp only at h ⊢
    by_cases hcl : checkLimits = true
    · rw [if_pos hcl] at h ⊢
      by_cases hov : (getUserStorageUsage env.backend env.nowTs st
          cpf).1.usedMB + (cf.size : ℚ) / (1024 * 1024) >
          MAX_STORAGE_PER_USER_MB
      · rw [if_pos hov] at h
        exact absurd h (by simp)
      · rw [if_neg hov] at h ⊢
        unfold uploadCore at h ⊢
        dsimp only at h ⊢
        by_cases hup : env.uploadOk = true
        · rw [if_pos hup]
          exact ⟨(getUserStorageUsage env.backend env.nowTs st cpf).2, rfl⟩
        · rw [if_neg hup] at h
          exact absurd h (by simp)
    · rw [if_neg hcl] at h ⊢
      unfold uploadCore at h ⊢
      dsimp only at h ⊢
      by_cases hup : env.uploadOk = true
      · rw [if_pos hup]
        exact ⟨st, rfl⟩
      · rw [if_neg hup] at h
        exact absurd h (by simp)

/-- C7: after a successful upload (and after a successful deletion) for
an owner, the owner's cached usage snapshot and pending-request marker
are gone, and the next usage query — at any later time, even within the
previous snapshot's freshness window — issues a network listing call and
reports the post-mutation backend data. -/
theorem mutation_invalidates_cache (env : UploadEnv) (st : SvcState)
    (file : CandidateFile) (cpf fn : String) (checkLimits : Bool)
    (res : UploadSuccess)
    (backend2 : String → Option (List StoredFile)) (now2 : Nat)
    (h : (uploadImage env st file cpf checkLimits).result = some res) :
    (∀ e, (uploadImage env st file cpf
      checkLimits).state.userImagesCache = some e → e.cpf ≠ cpf) ∧
    (uploadImage env st file cpf
      checkLimits).state.pendingRequests.lookup cpf = none ∧
    (countUserImages backend2 now2
      (uploadImage env st file cpf checkLimits).state cpf).1 =
      ((backend2 cpf).getD []).length ∧
    (fetchUserImagesList backend2 now2
      (uploadImage env st file cpf checkLimits).state cpf
      true).networkCalls = 1 ∧
    (∀ e, (deleteImage true st cpf fn).2.userImagesCache = some e →
      e.cpf ≠ cpf) ∧
    (deleteImage true st cpf fn).2.pendingRequests.lookup cpf = none ∧
    (countUserImages backend2 now2 (deleteImage true st cpf fn).2 cpf).1 =
      ((backend2 cpf).getD []).length := by
  obtain ⟨st0, hst⟩ :=
    uploadImage_success_state env st file cpf checkLimits res h
  have hdel : (deleteImage true st cpf fn).2 =
      invalidateUserImagesCache st (some cpf) := rfl
  have hu := invalidate_forces_refetch st0 cpf backend2 now2
  have hd := invalidate_forces_refetch st cpf backend2 now2
  rw [hst, hdel]
  refine ⟨hu.1, hu.2.1, ?_, hu.2.2.2, hd.1, hd.2.1, ?_⟩
  · show (fetchUserImagesList backend2 now2
      (invalidateUserImagesCache st0 (some cpf)) cpf true).data.length = _
    rw [hu.2.2.1]
  · show (fetchUserImagesList backend2 now2
      (invalidateUserImagesCache st (some cpf)) cpf true).data.length = _
    rw [hd.2.2.1]

/-- Witness for C7: a concrete successful upload of a small JPEG (kept
as-is by compression) for owner `"u"`, followed by a usage query against
a two-file backend state. -/
theorem mutation_invalidates_cache_app :
    (∀ e, (uploadImage ⟨fun _ => some [], true, fun p => p, 5, "r"⟩
      ⟨some ⟨"u", [], 4⟩, []⟩
      ⟨⟨"a.jpg", "image/jpeg", 100⟩, some (10, 10),
        .ok ⟨"z.webp", "image/webp", 50⟩⟩ "u"
      false).state.userImagesCache = some e → e.cpf ≠ "u") ∧
    (uploadImage ⟨fun _ => some [], true, fun p => p, 5, "r"⟩
      ⟨some ⟨"u", [], 4⟩, []⟩
      ⟨⟨"a.jpg", "image/jpeg", 100⟩, some (10, 10),
        .ok ⟨"z.webp", "image/webp", 50⟩⟩ "u"
      false).state.pendingRequests.lookup "u" = none ∧
    (countUserImages (fun _ => some ([⟨"p1", some 7, none⟩,
      ⟨"p2", some 9, none⟩] : List StoredFile)) 6
      (uploadImage ⟨fun _ => some [], true, fun p => p, 5, "r"⟩
        ⟨some ⟨"u", [], 4⟩, []⟩
        ⟨⟨"a.jpg", "image/jpeg", 100⟩, some (10, 10),
          .ok ⟨"z.webp", "image/webp", 50⟩⟩ "u" false).state "u").1 =
      (((fun _ : String => some ([⟨"p1", some 7, none⟩,
        ⟨"p2", some 9, none⟩] : List StoredFile)) "u").getD []).length ∧
    (fetchUserImagesList (fun _ => some ([⟨"p1", some 7, none⟩,
      ⟨"p2", some 9, none⟩] : List StoredFile)) 6
      (uploadImage ⟨fun _ => some [], true, fun p => p, 5, "r"⟩
        ⟨some ⟨"u", [], 4⟩, []⟩
        ⟨⟨"a.jpg", "image/jpeg", 100⟩, some (10, 10),
          .ok ⟨"z.webp", "image/webp", 50⟩⟩ "u" false).state "u"
      true).networkCalls = 1 ∧
    (∀ e, (deleteImage true ⟨some ⟨"u", [], 4⟩, []⟩ "u"
      "old.webp").2.userImagesCache = some e → e.cpf ≠ "u") ∧
    (deleteImage true ⟨some ⟨"u", [], 4⟩, []⟩ "u"
      "old.webp").2.pendingRequests.lookup "u" = none ∧
    (countUserImages (fun _ => some ([⟨"p1", some 7, none⟩,
      ⟨"p2", some 9, none⟩] : List StoredFile)) 6
      (deleteImage true ⟨some ⟨"u", [], 4⟩, []⟩ "u" "old.webp").2 "u").1 =
      (((fun _ : String => some ([⟨"p1", some 7, none⟩,
        ⟨"p2", some 9, none⟩] : List StoredFile)) "u").getD []).length :=
  mutation_invalidates_cache ⟨fun _ => some [], true, fun p => p, 5, "r"⟩
    ⟨some ⟨"u", [], 4⟩, []⟩
    ⟨⟨"a.jpg", "image/jpeg", 100⟩, some (10, 10),
      .ok ⟨"z.webp", "image/webp", 50⟩⟩ "u" "old.webp" false
    ⟨"u/5-r.jpg", encodeUniqueId "u" "5-r.jpg", "5-r.jpg"⟩
    (fun _ => some ([⟨"p1", some 7, none⟩, ⟨"p2", some 9, none⟩] : List StoredFile)) 6
    (by decide)

theorem uploadCheckOf_currentCount (info : UserImagesInfo)
    (files : List CandidateFile) (ac : Bool) :
    (uploadCheckOf info files ac).currentCount = info.count := by
  simp only [uploadCheckOf]
  split
  · rfl
  · split
    · split
      · rfl
      · split <;> rfl
    · split
      · rfl
      · split <;> rfl

theorem uploadCheckOf_currentMB (info : UserImagesInfo)
    (files : List CandidateFile) (ac : Bool) (h : info.usedMB = 0) :
    (uploadCheckOf info files ac).currentMB = 0 := by
  simp only [uploadCheckOf]
  split
  · exact h
  · split
    · split
      · rfl
      · split
        · exact h
        · exact h
    · split
      · rfl
      · split
        · exact h
        · exact h

/-- C10: when the storage listing call for an owner fails, the fetch
resolves to the empty list instead of propagating the failure, so the
count and byte usage read as zero and the admission check computes
`currentCount = 0`, `currentMB = 0` and admits any batch that fits an
empty quota — even though the owner's true data (read through a working
backend) would have rejected it.  The quota check fails open on backend
listing failure. -/
theorem listing_failure_fails_open
    (backend backend2 : String → Option (List StoredFile)) (now : Nat)
    (st : SvcState) (cpf : String) (files : List CandidateFile)
    (hb : backend cpf = none)
    (hcache : ∀ e, st.userImagesCache = some e → e.cpf ≠ cpf)
    (hpend : st.pendingRequests.lookup cpf = none) :
    (fetchUserImagesList backend now st cpf true).data = [] ∧
    (countUserImages backend now st cpf).1 = 0 ∧
    (getUserStorageUsage backend now st cpf).1 = ⟨0, 0, 0⟩ ∧
    (canUploadImages backend now st cpf files false).check.currentCount =
      0 ∧
    (canUploadImages backend now st cpf files false).check.currentMB = 0 ∧
    (files.length ≤ MAX_IMAGES_PER_USER →
      compressionErrorsOf files = [] →
      (compressedBlobsOf files).foldl (fun sum f => sum + f.size) 0 ≤
        20 * (1024 * 1024) →
      (canUploadImages backend now st cpf files false).check.canUpload =
        true) ∧
    (∀ trueData, backend2 cpf = some trueData →
      trueData.length + files.length > MAX_IMAGES_PER_USER →
      (canUploadImages backend2 now st cpf files false).check.canUpload =
        false) := by
  have hfetch : fetchUserImagesList backend now st cpf true =
      fetchNetwork backend now st cpf :=
    fetch_cache_miss backend now st cpf hcache
  have hdata : (fetchUserImagesList backend now st cpf true).data = [] := by
    rw [hfetch, fetchNetwork_no_pending_data backend now st cpf hpend, hb]
    rfl
  have hinfo := (getUserImagesInfo_no_pending backend now st cpf hpend).1
  rw [hb] at hinfo
  have hinfo0 : (getUserImagesInfo backend now st cpf).info = ⟨0, 0, 0⟩ := by
    rw [hinfo]
    simp [totalListBytes]
  have hcheck : (canUploadImages backend now st cpf files false).check =
      uploadCheckOf (getUserImagesInfo backend now st cpf).info files
        false := rfl
  refine ⟨hdata, ?_, ?_, ?_, ?_, ?_, ?_⟩
  · show (fetchUserImagesList backend now st cpf true).data.length = 0
    rw [hdata]
    rfl
  · unfold getUserStorageUsage
    dsimp only
    rw [hdata]
    rfl
  · rw [hcheck, uploadCheckOf_currentCount, hinfo0]
  · rw [hcheck, uploadCheckOf_currentMB]
    rw [hinfo0]
  · intro h1 h2 h3
    have hcnt : (getUserImagesInfo backend now st cpf).info.count +
        files.length ≤ MAX_IMAGES_PER_USER := by
      rw [hinfo0]
      simpa using h1
    rw [hcheck, uploadCheckOf_no_errors _ _ hcnt h2]
    rw [if_neg]
    have husedMB : (getUserImagesInfo backend now st cpf).info.usedMB =
        0 := by rw [hinfo0]
    rw [husedMB, zero_add, MAX_STORAGE_PER_USER_MB, gt_iff_lt, not_lt,
      div_le_iff (by norm_num : (0 : ℚ) < 1024 * 1024)]
    exact_mod_cast h3
  · intro trueData hb2 hcnt
    have hinfo2 := (getUserImagesInfo_no_pending backend2 now st cpf
      hpend).1
    rw [hb2] at hinfo2
    have hc2 : (canUploadImages backend2 now st cpf files false).check =
        uploadCheckOf (getUserImagesInfo backend2 now st cpf).info files
          false := rfl
    rw [hc2, uploadCheckOf_count_reject]
    rw [hinfo2]
    simpa using hcnt

/-- Witness for C10: a failing listing backend admits a one-file batch
for an owner whose true contents (100 stored files through a working
backend) would have been rejected for count. -/
theorem listing_failure_fails_open_app :
    (countUserImages (fun _ => none) 0 ⟨none, []⟩ "u").1 = 0 ∧
    (canUploadImages (fun _ => none) 0 ⟨none, []⟩ "u"
      [⟨⟨"new.png", "image/png", 10⟩, none,
        .ok ⟨"n.webp", "image/webp", 5⟩⟩] false).check.canUpload = true ∧
    (canUploadImages (fun _ =>
        some (List.replicate 100 ⟨"f", some 1000, none⟩)) 0 ⟨none, []⟩ "u"
      [⟨⟨"new.png", "image/png", 10⟩, none,
        .ok ⟨"n.webp", "image/webp", 5⟩⟩] false).check.canUpload = false := by
  have h := listing_failure_fails_open (fun _ => none)
    (fun _ => some (List.replicate 100 ⟨"f", some 1000, none⟩)) 0
    ⟨none, []⟩ "u"
    [⟨⟨"new.png", "image/png", 10⟩, none,
      .ok ⟨"n.webp", "image/webp", 5⟩⟩]
    rfl (by intro e he; exact absurd he (by simp)) rfl
  exact ⟨h.2.1, h.2.2.2.2.2.1 (by decide) (by decide) (by decide),
    h.2.2.2.2.2.2 (List.replicate 100 ⟨"f", some 1000, none⟩) rfl
      (by decide)⟩

/-- C1 (code bug): logging in with the CPF `"529.982.247-25"` stores the
cleaned raw CPF `"52998224725"`, the components pass it to `uploadImage`
as the owner argument, and the storage path written by the upload is
`52998224725/1700000000000-abc123.webp` — its prefix is the raw national
ID (11 digits, not the 16-hex-character owner identifier), contradicting
the documented `{ownerIdentifier}/{filename}` convention. -/
theorem uploadImage_path_is_raw_cpf :
    loginStoredCpf "529.982.247-25" = "52998224725" ∧
    (uploadImage ⟨fun _ => some [], true, fun p => "https://host/" ++ p,
      1700000000000, "abc123"⟩ ⟨none, []⟩
      ⟨⟨"photo.png", "image/png", 500000⟩, some (1000, 800),
        .ok ⟨"photo.webp", "image/webp", 120000⟩⟩
      (loginStoredCpf "529.982.247-25") false).uploadedPath =
      some (cleanCPF "529.982.247-25" ++ "/1700000000000-abc123.webp") ∧
    (cleanCPF "529.982.247-25").length = 11 := by
  decide

/-- Witness for C3 (amended): an owner at the 100-image limit has a
one-file batch rejected for count, with no compression attempt and no
upload call. -/
theorem canUploadImages_count_check_app :
    (canUploadImages (fun _ =>
        some (List.replicate 100 ⟨"f", some 1000, none⟩)) 0 ⟨none, []⟩ "u"
      [⟨⟨"new.png", "image/png", 10⟩, none,
        .ok ⟨"n.webp", "image/webp", 5⟩⟩] false).check.reason =
      some .count ∧
    (canUploadImages (fun _ =>
        some (List.replicate 100 ⟨"f", some 1000, none⟩)) 0 ⟨none, []⟩ "u"
      [⟨⟨"new.png", "image/png", 10⟩, none,
        .ok ⟨"n.webp", "image/webp", 5⟩⟩] false).check.canUpload = false ∧
    (canUploadImages (fun _ =>
        some (List.replicate 100 ⟨"f", some 1000, none⟩)) 0 ⟨none, []⟩ "u"
      [⟨⟨"new.png", "image/png", 10⟩, none,
        .ok ⟨"n.webp", "image/webp", 5⟩⟩] false).compressAttempts = [] ∧
    handleUploadCalls (fun _ =>
        some (List.replicate 100 ⟨"f", some 1000, none⟩)) 0 ⟨none, []⟩ "u"
      [⟨⟨"new.png", "image/png", 10⟩, none,
        .ok ⟨"n.webp", "image/webp", 5⟩⟩] = 0 :=
  have h := canUploadImages_count_check (fun _ =>
      some (List.replicate 100 ⟨"f", some 1000, none⟩)) 0 ⟨none, []⟩ "u"
    [⟨⟨"new.png", "image/png", 10⟩, none,
      .ok ⟨"n.webp", "image/webp", 5⟩⟩] false
  have hcond : (getUserImagesInfo (fun _ =>
      some (List.replicate 100 ⟨"f", some 1000, none⟩)) 0 ⟨none, []⟩
      "u").info.count +
      ([⟨⟨"new.png", "image/png", 10⟩, none,
        .ok ⟨"n.webp", "image/webp", 5⟩⟩] :
        List CandidateFile).length > MAX_IMAGES_PER_USER := by decide
  ⟨((h.1).mpr hcond).1, (h.2 hcond).1, (h.2 hcond).2.1, (h.2 hcond).2.2⟩

/-- Witness for C4: a batch with one file whose compression library
throws is rejected with a compression-failure message carrying that
error. -/
theorem canUploadImages_compression_failure_app :
    (canUploadImages (fun _ => some ([] : List StoredFile)) 0 ⟨none, []⟩
      "u" [⟨⟨"corrupt.png", "image/png", 100⟩, none, .thrown "boom"⟩]
      false).check.canUpload = false ∧
    (canUploadImages (fun _ => some ([] : List StoredFile)) 0 ⟨none, []⟩
      "u" [⟨⟨"corrupt.png", "image/png", 100⟩, none, .thrown "boom"⟩]
      false).check.message = some (.compressionFailure 1 1 "boom") :=
  have h := canUploadImages_compression_failure
    (fun _ => some ([] : List StoredFile)) 0 ⟨none, []⟩ "u"
    [⟨⟨"corrupt.png", "image/png", 100⟩, none, .thrown "boom"⟩]
    (by decide) (by decide)
  ⟨h.1, h.2.1.trans (by decide)⟩

end ImageHub




